import Mathlib

/-!
# Verification of the investment-api reporting and maintenance controllers

Shallow embedding of the aggregation/report logic of
`src/controllers/users.ts`, `dist/controllers/portfolioassets.js` and the
asset list controller.  JavaScript numbers are modelled as rationals (ℚ),
timestamps as integers (day index since the epoch, 1970-01-01 = day 0,
which was a Thursday, so JS `getDay` of day `t` is `(t + 4) % 7`), and
`parseInt` results as `Option ℤ` with `none` standing for `NaN`.
-/

namespace InvestmentApi

/-- Transaction status enum of Deposit/Withdrawal rows. -/
inductive TxStatus
  | PENDING
  | APPROVED
  | REJECTED
deriving DecidableEq, Repr

instance : BEq TxStatus := ⟨fun a b => decide (a = b)⟩

@[simp] theorem txStatus_beq_iff (a b : TxStatus) : (a == b) = true ↔ a = b := by
  simp [BEq.beq]

/-- A deposit (or withdrawal) row as read by the report controllers:
`amount` (decimal), `createdAt` (day index), `transactionStatus`. -/
structure Deposit where
  amount : ℚ
  createdAt : ℤ
  transactionStatus : TxStatus
deriving DecidableEq, Repr

/-- One bucket of a grouped breakdown: `{ count, amount }`. -/
structure Bucket where
  count : ℕ
  amount : ℚ
deriving DecidableEq, Repr

/-- One step of the `reduce` that builds a `Record<string, {count, amount}>`:
if the key is already present its bucket is updated in place, otherwise a
fresh `{count: 1, amount}` bucket is appended (JS object insertion order). -/
def upsert (key : ℤ) (amt : ℚ) : List (ℤ × Bucket) → List (ℤ × Bucket)
  | [] => [(key, ⟨1, amt⟩)]
  | (k, b) :: rest =>
    if k = key then (k, ⟨b.count + 1, b.amount + amt⟩) :: rest
    else (k, b) :: upsert key amt rest

/-- The generic grouping `reduce` of the report controllers: fold the record
list into an association list of buckets keyed by `keyOf`. -/
def groupByKey (keyOf : Deposit → ℤ) (ds : List Deposit) : List (ℤ × Bucket) :=
  ds.foldl (fun acc d => upsert (keyOf d) d.amount acc) []

/-- `dailyBreakdown` of `getDepositsReport`: group by the calendar date of
`createdAt` (the `toISOString().split("T")[0]` key, here the day index). -/
def dailyBreakdown (ds : List Deposit) : List (ℤ × Bucket) :=
  groupByKey (fun d => d.createdAt) ds

/-- Total of `bucket.amount` over all buckets of a breakdown. -/
def bucketAmountTotal (l : List (ℤ × Bucket)) : ℚ :=
  (l.map (fun kb => kb.2.amount)).sum

/-- Total of `bucket.count` over all buckets of a breakdown. -/
def bucketCountTotal (l : List (ℤ × Bucket)) : ℕ :=
  (l.map (fun kb => kb.2.count)).sum

/-- The `summary` object computed by `getDepositsReport`. -/
structure DepositsSummary where
  totalCount : ℕ
  totalAmount : ℚ
  pendingCount : ℕ
  pendingAmount : ℚ
  approvedCount : ℕ
  approvedAmount : ℚ
  rejectedCount : ℕ
  rejectedAmount : ℚ
  averageDeposit : ℚ
deriving DecidableEq, Repr

/-- `getDepositsReport` summary: totals, per-status counts/amounts, and
`averageDeposit = totalDeposits / deposits.length` guarded by `length > 0`. -/
def depositsSummary (ds : List Deposit) : DepositsSummary :=
  let totalDeposits := (ds.map (fun d => d.amount)).sum
  let pend := ds.filter (fun d => d.transactionStatus == TxStatus.PENDING)
  let appr := ds.filter (fun d => d.transactionStatus == TxStatus.APPROVED)
  let rej := ds.filter (fun d => d.transactionStatus == TxStatus.REJECTED)
  { totalCount := ds.length
    totalAmount := totalDeposits
    pendingCount := pend.length
    pendingAmount := (pend.map (fun d => d.amount)).sum
    approvedCount := appr.length
    approvedAmount := (appr.map (fun d => d.amount)).sum
    rejectedCount := rej.length
    rejectedAmount := (rej.map (fun d => d.amount)).sum
    averageDeposit :=
      if ds.length > 0 then totalDeposits / (ds.length : ℚ) else 0 }

/- Mass-conservation lemmas for the grouping fold. -/

theorem upsert_amountTotal (key : ℤ) (amt : ℚ) (acc : List (ℤ × Bucket)) :
    bucketAmountTotal (upsert key amt acc) = bucketAmountTotal acc + amt := by
  induction acc with
  | nil => simp [upsert, bucketAmountTotal]
  | cons hd tl ih =>
    obtain ⟨k, b⟩ := hd
    by_cases hk : k = key
    · simp [upsert, hk, bucketAmountTotal]
      ring
    · simp only [upsert, hk, if_false, bucketAmountTotal, List.map_cons, List.sum_cons]
      rw [show (tl.map (fun kb => kb.2.amount)).sum = bucketAmountTotal tl from rfl] at *
      rw [show ((upsert key amt tl).map (fun kb => kb.2.amount)).sum
            = bucketAmountTotal (upsert key amt tl) from rfl]
      rw [ih]
      ring

theorem upsert_countTotal (key : ℤ) (amt : ℚ) (acc : List (ℤ × Bucket)) :
    bucketCountTotal (upsert key amt acc) = bucketCountTotal acc + 1 := by
  induction acc with
  | nil => simp [upsert, bucketCountTotal]
  | cons hd tl ih =>
    obtain ⟨k, b⟩ := hd
    by_cases hk : k = key
    · simp [upsert, hk, bucketCountTotal]
      omega
    · simp only [upsert, hk, if_false, bucketCountTotal, List.map_cons, List.sum_cons]
      rw [show (tl.map (fun kb => kb.2.count)).sum = bucketCountTotal tl from rfl] at *
      rw [show ((upsert key amt tl).map (fun kb => kb.2.count)).sum
            = bucketCountTotal (upsert key amt tl) from rfl]
      omega

theorem groupByKey_foldl_amount (keyOf : Deposit → ℤ) (ds : List Deposit)
    (acc : List (ℤ × Bucket)) :
    bucketAmountTotal (ds.foldl (fun acc d => upsert (keyOf d) d.amount acc) acc)
      = bucketAmountTotal acc + (ds.map (fun d => d.amount)).sum := by
  induction ds generalizing acc with
  | nil => simp
  | cons d rest ih =>
    simp only [List.foldl_cons, List.map_cons, List.sum_cons]
    rw [ih, upsert_amountTotal]
    ring

theorem groupByKey_foldl_count (keyOf : Deposit → ℤ) (ds : List Deposit)
    (acc : List (ℤ × Bucket)) :
    bucketCountTotal (ds.foldl (fun acc d => upsert (keyOf d) d.amount acc) acc)
      = bucketCountTotal acc + ds.length := by
  induction ds generalizing acc with
  | nil => simp
  | cons d rest ih =>
    simp only [List.foldl_cons, List.length_cons]
    rw [ih, upsert_countTotal]
    omega

/-- C1: the dailyBreakdown of getDepositsReport preserves total mass: the sum
of `bucket.amount` over all date buckets equals the sum of `record.amount`
over the input records, and the sum of `bucket.count` equals the number of
input records. -/
theorem deposits_dailyBreakdown_mass (ds : List Deposit) :
    bucketAmountTotal (dailyBreakdown ds) = (ds.map (fun d => d.amount)).sum ∧
    bucketCountTotal (dailyBreakdown ds) = ds.length := by
  constructor
  · have h := groupByKey_foldl_amount (fun d => d.createdAt) ds []
    simpa [dailyBreakdown, groupByKey, bucketAmountTotal] using h
  · have h := groupByKey_foldl_count (fun d => d.createdAt) ds []
    simpa [dailyBreakdown, groupByKey, bucketCountTotal] using h

/- C2: the three-deposit scenario of the spec. -/

/-- The scenario input: `[{amount:1000,APPROVED},{amount:500,PENDING},{amount:200,REJECTED}]`
(the `createdAt` day is irrelevant to the summary). -/
def scenarioDeposits : List Deposit :=
  [⟨1000, 0, TxStatus.APPROVED⟩, ⟨500, 0, TxStatus.PENDING⟩, ⟨200, 0, TxStatus.REJECTED⟩]

/-- C2 counterexample: on the scenario input the code computes
`averageDeposit = 1700 / 3 = 566.666…`, which is not the claimed `566.67`
(the controller never rounds the average). -/
theorem scenario_averageDeposit_not_566_67 :
    (depositsSummary scenarioDeposits).averageDeposit = 1700 / 3 ∧
    (depositsSummary scenarioDeposits).averageDeposit ≠ 56667 / 100 := by
  constructor
  · show ([(1000 : ℚ), 500, 200]).sum / ((3 : ℕ) : ℚ) = 1700 / 3
    norm_num
  · show ([(1000 : ℚ), 500, 200]).sum / ((3 : ℕ) : ℚ) ≠ 56667 / 100
    norm_num

/-- C2 (amended): on the scenario input the summary has `totalAmount = 1700`,
`approved.amount = 1000`, `pending.amount = 500`, `rejected.amount = 200`,
and `averageDeposit = 1700/3` (≈ 566.67, but stored unrounded). -/
theorem scenario_summary_values :
    (depositsSummary scenarioDeposits).totalAmount = 1700 ∧
    (depositsSummary scenarioDeposits).approvedAmount = 1000 ∧
    (depositsSummary scenarioDeposits).pendingAmount = 500 ∧
    (depositsSummary scenarioDeposits).rejectedAmount = 200 ∧
    (depositsSummary scenarioDeposits).averageDeposit = 1700 / 3 := by
  refine ⟨?_, ?_, ?_, ?_, ?_⟩
  · show ([(1000 : ℚ), 500, 200]).sum = 1700
    norm_num
  · show ([(1000 : ℚ)]).sum = 1000
    norm_num
  · show ([(500 : ℚ)]).sum = 500
    norm_num
  · show ([(200 : ℚ)]).sum = 200
    norm_num
  · show ([(1000 : ℚ), 500, 200]).sum / ((3 : ℕ) : ℚ) = 1700 / 3
    norm_num

/- C3: growth metrics of getComprehensiveFinancialReport. -/

/-- Outcome of the growth-metrics branch of `getComprehensiveFinancialReport`:
`null` (growthMetrics stays null), computed metrics, or a thrown
`TypeError` (the handler's catch turns it into a 500 response). -/
inductive GrowthMetrics
  | null
  | metrics (depositGrowth withdrawalGrowth : Option ℚ)
  | thrown
deriving DecidableEq, Repr

/-- Sum of `amount` over the APPROVED records whose `createdAt` satisfies `p`
(the `aggregate _sum` / `filter-approved + reduce` pattern of the controller). -/
def approvedSumWhere (p : ℤ → Bool) (ts : List Deposit) : ℚ :=
  ((ts.filter (fun t => t.transactionStatus == TxStatus.APPROVED && p t.createdAt)).map
      (fun t => t.amount)).sum

/-- `previous > 0 ? ((current − previous) / previous) * 100 : null`. -/
def growthOf (current previous : ℚ) : Option ℚ :=
  if previous > 0 then some ((current - previous) / previous * 100) else none

/-- The growth-metrics computation of `getComprehensiveFinancialReport`,
following the code case by case on the presence of `startDate`/`endDate`:
  * both absent: `dateFilter` is undefined, `growthMetrics` stays `null`;
  * only `startDate`: `dateFilter.gte` is truthy, so the previous-window
    bound dereferences `dateFilter.lte!.getTime()` on `undefined` — a
    thrown `TypeError`;
  * only `endDate`: `dateFilter.gte` is falsy, so the previous-period query
    gets `lt: undefined, gte: undefined` (no date constraint at all) and the
    current window is `createdAt ≤ endDate`;
  * both: current window `startDate ≤ createdAt ≤ endDate`, previous window
    `startDate − (endDate − startDate) ≤ createdAt < startDate`. -/
def computeGrowthMetrics (startDate endDate : Option ℤ)
    (deps wds : List Deposit) : GrowthMetrics :=
  match startDate, endDate with
  | none, none => .null
  | some _, none => .thrown
  | none, some e =>
    let curD := approvedSumWhere (fun t => t ≤ e) deps
    let curW := approvedSumWhere (fun t => t ≤ e) wds
    let prevD := approvedSumWhere (fun _ => true) deps
    let prevW := approvedSumWhere (fun _ => true) wds
    .metrics (growthOf curD prevD) (growthOf curW prevW)
  | some s, some e =>
    let curD := approvedSumWhere (fun t => s ≤ t && t ≤ e) deps
    let curW := approvedSumWhere (fun t => s ≤ t && t ≤ e) wds
    let prevD := approvedSumWhere (fun t => s - (e - s) ≤ t && t < s) deps
    let prevW := approvedSumWhere (fun t => s - (e - s) ≤ t && t < s) wds
    .metrics (growthOf curD prevD) (growthOf curW prevW)

/-- Spec-side predicate: the preceding window of the same duration as
`[s, e]`, ending at (and excluding) `s`. -/
def precedingWindow (s e t : ℤ) : Prop := s - (e - s) ≤ t ∧ t < s

instance instDecidablePrecedingWindow (s e t : ℤ) : Decidable (precedingWindow s e t) :=
  inferInstanceAs (Decidable (s - (e - s) ≤ t ∧ t < s))

/-- C3 counterexample: with `startDate` absent and `endDate = 10`, on a table
holding one APPROVED deposit of amount 100 at day 5, the code computes
`growthMetrics = { depositGrowth: 0, withdrawalGrowth: null }` — not `null`
as the claim requires when one of the two parameters is absent. -/
theorem growthMetrics_endDate_only_not_null :
    computeGrowthMetrics none (some 10) [⟨100, 5, TxStatus.APPROVED⟩] []
        = GrowthMetrics.metrics (some 0) none ∧
    GrowthMetrics.metrics (some 0) none ≠ GrowthMetrics.null := by
  constructor
  · show GrowthMetrics.metrics
        (growthOf (approvedSumWhere (fun t => t ≤ 10) [⟨100, 5, TxStatus.APPROVED⟩])
          (approvedSumWhere (fun _ => true) [⟨100, 5, TxStatus.APPROVED⟩]))
        (growthOf (approvedSumWhere (fun t => t ≤ 10) [])
          (approvedSumWhere (fun _ => true) []))
        = GrowthMetrics.metrics (some 0) none
    have h1 : approvedSumWhere (fun t => t ≤ 10) [⟨100, 5, TxStatus.APPROVED⟩]
        = ([(100 : ℚ)]).sum := rfl
    have h2 : approvedSumWhere (fun _ => true) [⟨100, 5, TxStatus.APPROVED⟩]
        = ([(100 : ℚ)]).sum := rfl
    have h3 : approvedSumWhere (fun t => t ≤ 10) ([] : List Deposit) = ([] : List ℚ).sum := rfl
    have h4 : approvedSumWhere (fun _ => true) ([] : List Deposit) = ([] : List ℚ).sum := rfl
    rw [h1, h2, h3, h4]
    norm_num [growthOf]
  · intro h
    exact GrowthMetrics.noConfusion h

/-- C3 (amended): growthMetrics is `null` exactly when neither `startDate`
nor `endDate` is supplied; with only `startDate` the handler throws (500);
with only `endDate` the metrics are computed against an unbounded previous
period (every APPROVED record); and when both are supplied the previous
period is the window of the same duration ending at `startDate`. -/
theorem growthMetrics_cases (s e : ℤ) (deps wds : List Deposit) :
    computeGrowthMetrics none none deps wds = GrowthMetrics.null ∧
    computeGrowthMetrics (some s) none deps wds = GrowthMetrics.thrown ∧
    computeGrowthMetrics none (some e) deps wds
      = GrowthMetrics.metrics
          (growthOf (approvedSumWhere (fun t => t ≤ e) deps)
            (approvedSumWhere (fun _ => true) deps))
          (growthOf (approvedSumWhere (fun t => t ≤ e) wds)
            (approvedSumWhere (fun _ => true) wds)) ∧
    computeGrowthMetrics (some s) (some e) deps wds
      = GrowthMetrics.metrics
          (growthOf (approvedSumWhere (fun t => s ≤ t && t ≤ e) deps)
            (approvedSumWhere (fun t => decide (precedingWindow s e t)) deps))
          (growthOf (approvedSumWhere (fun t => s ≤ t && t ≤ e) wds)
            (approvedSumWhere (fun t => decide (precedingWindow s e t)) wds)) := by
  refine ⟨rfl, rfl, rfl, ?_⟩
  have hwin : ∀ t : ℤ, (decide (precedingWindow s e t))
      = (s - (e - s) ≤ t && t < s) := by
    intro t
    by_cases h1 : s - (e - s) ≤ t <;> by_cases h2 : t < s <;>
      simp [precedingWindow, h1, h2]
  have hfun : (fun t : ℤ => decide (precedingWindow s e t))
      = (fun t : ℤ => s - (e - s) ≤ t && t < s) := funext hwin
  show GrowthMetrics.metrics _ _ = _
  rw [hfun]

/- C4 and C10: deleteOldLogs (activity-log retention cleanup). -/

/-- An activity-log row as touched by `deleteOldLogs`:
`createdAt` (day index), `action`, free-text `description`. -/
structure LogRec where
  createdAt : ℤ
  action : String
  description : String
deriving DecidableEq, Repr

/-- Response of `deleteOldLogs` together with the resulting activity-log
table. `invalidCutoffDeletion` is the branch reached when `parseInt` gave
`NaN`: the `days < 30` guard is skipped (NaN comparisons are false) and the
deletion runs with a cutoff built from `NaN` (an Invalid Date), which the
persistence layer rejects, so the handler's catch answers 500 and the
table is left unchanged. -/
inductive CleanupOutcome
  | forbidden (logs : List LogRec)
  | badRequest (logs : List LogRec)
  | invalidCutoffDeletion (logs : List LogRec)
  | ok (deletedCount : ℕ) (logs : List LogRec)
deriving DecidableEq, Repr

/-- The audit record `deleteOldLogs` writes after a successful deletion. -/
def cleanupRecord (deletedCount : ℕ) (d : ℤ) (now : ℤ) : LogRec :=
  { createdAt := now
    action := "LOGS_CLEANUP"
    description := "Deleted " ++ toString deletedCount ++ " logs older than "
      ++ toString d ++ " days" }

/-- `deleteOldLogs`, with `olderThanDays` already put through
`parseInt` (`none` = `NaN`); `now` is the current day, `logs` the
activity-log table. The guard is the JS comparison `days < 30`, which is
false when `days` is `NaN`; on success the rows with `createdAt < now − d`
are deleted and one `LOGS_CLEANUP` record is appended. -/
def deleteOldLogs (role : String) (olderThanDays : Option ℤ) (now : ℤ)
    (logs : List LogRec) : CleanupOutcome :=
  if role = "SUPER_ADMIN" then
    let daysLt30 : Bool :=
      match olderThanDays with
      | some d => decide (d < 30)
      | none => false
    if daysLt30 then .badRequest logs
    else
      match olderThanDays with
      | none => .invalidCutoffDeletion logs
      | some d =>
        let cutoff := now - d
        let deleted := logs.filter (fun l => decide (l.createdAt < cutoff))
        let kept := logs.filter (fun l => ! decide (l.createdAt < cutoff))
        .ok deleted.length (kept ++ [cleanupRecord deleted.length d now])
  else .forbidden logs

/-- C4: a SUPER_ADMIN request whose `olderThanDays` parses to an integer
`d < 30` is rejected with 400 and the log table is unchanged; for `d ≥ 30`
the handler deletes exactly the rows with `createdAt` older than
`now − d` days (the survivors are exactly the rows at least as recent as
the cutoff) and appends one LOGS_CLEANUP audit record describing the
deletion. -/
theorem deleteOldLogs_boundary (d now : ℤ) (logs : List LogRec) :
    (d < 30 →
      deleteOldLogs "SUPER_ADMIN" (some d) now logs = CleanupOutcome.badRequest logs) ∧
    (30 ≤ d →
      deleteOldLogs "SUPER_ADMIN" (some d) now logs
        = CleanupOutcome.ok
            (logs.filter (fun l => decide (l.createdAt < now - d))).length
            ((logs.filter (fun l => decide (now - d ≤ l.createdAt)))
              ++ [cleanupRecord
                    (logs.filter (fun l => decide (l.createdAt < now - d))).length
                    d now])) := by
  constructor
  · intro hlt
    simp [deleteOldLogs, hlt]
  · intro hge
    have hnot : ¬ d < 30 := by omega
    have hkept : (logs.filter (fun l => ! decide (l.createdAt < now - d)))
        = (logs.filter (fun l => decide (now - d ≤ l.createdAt))) := by
      apply List.filter_congr
      intro l _
      by_cases h : l.createdAt < now - d <;> simp [h] <;> omega
    simp [deleteOldLogs, hnot, hkept]

/-- C4 witness: at the boundary, `olderThanDays = 29` is rejected with 400
leaving the single log untouched, and `olderThanDays = 30` deletes the one
row from day 0 (older than day 100 − 30 = 70), keeps the row from day 90,
and appends the LOGS_CLEANUP record. -/
theorem deleteOldLogs_boundary_check :
    deleteOldLogs "SUPER_ADMIN" (some 29) 100 [⟨0, "LOGIN", ""⟩]
      = CleanupOutcome.badRequest [⟨0, "LOGIN", ""⟩] ∧
    deleteOldLogs "SUPER_ADMIN" (some 30) 100 [⟨0, "LOGIN", ""⟩, ⟨90, "LOGIN", ""⟩]
      = CleanupOutcome.ok 1 [⟨90, "LOGIN", ""⟩, cleanupRecord 1 30 100] := by
  constructor
  · exact (deleteOldLogs_boundary 29 100 [⟨0, "LOGIN", ""⟩]).1 (by norm_num)
  · have h := (deleteOldLogs_boundary 30 100 [⟨0, "LOGIN", ""⟩, ⟨90, "LOGIN", ""⟩]).2
      (by norm_num)
    rw [h]
    rfl

/-- C10: a SUPER_ADMIN request whose `olderThanDays` is a non-numeric string
makes `parseInt` return `NaN`; the guard `days < 30` is then false, so the
request is not rejected with 400 and the deletion branch is reached with a
cutoff computed from `NaN` — the 30-day floor only blocks values that parse
to a number below 30. Shown at the concrete input `olderThanDays = "abc"`
(parse result `none`) over a one-row table. -/
theorem deleteOldLogs_nan_bypasses_guard :
    deleteOldLogs "SUPER_ADMIN" none 100 [⟨0, "LOGIN", ""⟩]
      = CleanupOutcome.invalidCutoffDeletion [⟨0, "LOGIN", ""⟩] ∧
    deleteOldLogs "SUPER_ADMIN" none 100 [⟨0, "LOGIN", ""⟩]
      ≠ CleanupOutcome.badRequest [⟨0, "LOGIN", ""⟩] := by
  refine ⟨rfl, ?_⟩
  intro h
  rw [show deleteOldLogs "SUPER_ADMIN" none 100 [⟨0, "LOGIN", ""⟩]
      = CleanupOutcome.invalidCutoffDeletion [⟨0, "LOGIN", ""⟩] from rfl] at h
  exact CleanupOutcome.noConfusion h

/- C5: lossGain invariant of createPortfolioAsset / updatePortfolioAsset
(dist/controllers/portfolioassets.js). -/

/-- A JavaScript request-body value as discriminated by the controller:
absent (`undefined`), `null`, the empty string, some other non-numeric
value (`Number(v)` is `NaN`), or a value whose `Number(v)` is the finite
rational `q`. -/
inductive JsIn
  | undef
  | nullv
  | emptyStr
  | nonNum
  | num (q : ℚ)
deriving DecidableEq, Repr

/-- `toNum(v, def)`: `Number(v)` if finite, else `def`. `Number(null)` and
`Number("")` are `0`; `Number(undefined)` and non-numeric strings are `NaN`. -/
def toNum (v : JsIn) (deflt : ℚ) : ℚ :=
  match v with
  | .num q => q
  | .nullv => 0
  | .emptyStr => 0
  | .undef => deflt
  | .nonNum => deflt

/-- `calcLossGain = (closeValue − costPrice) * stock`. -/
def calcLossGain (costPrice closeValue stock : ℚ) : ℚ :=
  (closeValue - costPrice) * stock

/-- The numeric fields of a stored PortfolioAsset row. -/
structure PARow where
  stock : ℚ
  costPrice : ℚ
  closeValue : ℚ
  lossGain : ℚ
deriving DecidableEq, Repr

/-- The row written by `createPortfolioAsset`: `stock`/`costPrice` default
to 0, `closeValue` falls back to the referenced asset's `closePrice` when
the body value is `undefined`/`null`/`""` (and to 0 when non-numeric), and
`lossGain` is computed by `calcLossGain` from those three values. -/
def createPortfolioAsset (bodyStock bodyCostPrice bodyCloseValue : JsIn)
    (assetClosePrice : ℚ) : PARow :=
  let stock := toNum bodyStock 0
  let costPrice := toNum bodyCostPrice 0
  let closeValue :=
    match bodyCloseValue with
    | .undef => assetClosePrice
    | .nullv => assetClosePrice
    | .emptyStr => assetClosePrice
    | v => toNum v 0
  { stock, costPrice, closeValue, lossGain := calcLossGain costPrice closeValue stock }

/-- The row written by `updatePortfolioAsset`: each of the three inputs is
`req.body.X !== undefined ? toNum(req.body.X, current.X) : current.X`, and
`lossGain` is recomputed by `calcLossGain` from the merged values. -/
def updatePortfolioAsset (current : PARow) (bodyStock bodyCostPrice bodyCloseValue : JsIn) :
    PARow :=
  let stock :=
    match bodyStock with
    | .undef => current.stock
    | v => toNum v current.stock
  let costPrice :=
    match bodyCostPrice with
    | .undef => current.costPrice
    | v => toNum v current.costPrice
  let closeValue :=
    match bodyCloseValue with
    | .undef => current.closeValue
    | v => toNum v current.closeValue
  { stock, costPrice, closeValue, lossGain := calcLossGain costPrice closeValue stock }

/-- C5: after every `createPortfolioAsset` and every `updatePortfolioAsset`
(including updates that change only one of the three inputs), the stored
`lossGain` equals `(closeValue − costPrice) × stock` recomputed from the
row's own stored `closeValue`, `costPrice` and `stock`. -/
theorem portfolioAsset_lossGain_invariant
    (bStock bCost bClose : JsIn) (assetClosePrice : ℚ)
    (current : PARow) (uStock uCost uClose : JsIn) :
    (let row := createPortfolioAsset bStock bCost bClose assetClosePrice
     row.lossGain = (row.closeValue - row.costPrice) * row.stock) ∧
    (let row := updatePortfolioAsset current uStock uCost uClose
     row.lossGain = (row.closeValue - row.costPrice) * row.stock) := by
  constructor
  · rfl
  · rfl

/- C6: success/failure rates of getUserActivityReport. -/

/-- An activity-log row as seen by `getUserActivityReport` (only the
`status` field matters for the rate computation). -/
structure ActivityRec where
  status : String
deriving DecidableEq, Repr

/-- The `byStatus` grouping key: `a.status || "Unknown"` (an empty status
string is falsy and maps to the `"Unknown"` bucket). -/
def statusKey (s : String) : String := if s = "" then "Unknown" else s

/-- `byStatus[key] || 0`: number of activities grouped under `key`. -/
def statusCount (key : String) (acts : List ActivityRec) : ℕ :=
  (acts.filter (fun a => statusKey a.status == key)).length

/-- `summary.successRate`: `(byStatus["SUCCESS"] || 0) / activities.length * 100`
guarded by `activities.length > 0`. -/
def successRate (acts : List ActivityRec) : ℚ :=
  if acts.length > 0 then (statusCount "SUCCESS" acts : ℚ) / (acts.length : ℚ) * 100 else 0

/-- `summary.failureRate`: `(byStatus["FAILED"] || 0) / activities.length * 100`
guarded by `activities.length > 0`. -/
def failureRate (acts : List ActivityRec) : ℚ :=
  if acts.length > 0 then (statusCount "FAILED" acts : ℚ) / (acts.length : ℚ) * 100 else 0

theorem length_filter_disjoint_le {α : Type} (p q : α → Bool) (l : List α)
    (h : ∀ x, p x = true → q x = false) :
    (l.filter p).length + (l.filter q).length ≤ l.length := by
  induction l with
  | nil => simp
  | cons x rest ih =>
    by_cases hp : p x = true
    · have hq := h x hp
      simp [List.filter_cons, hp, hq]
      omega
    · simp only [List.filter_cons]
      rw [if_neg (by simp_all)]
      by_cases hq : q x = true
      · simp [hq]
        omega
      · rw [if_neg (by simp_all)]
        simp
        omega

/-- C6: in the summary of getUserActivityReport, for every activity list
`successRate + failureRate ≤ 100`, and on the empty list both rates are 0
(the length-positive guard makes the division-by-count branch unreachable
when there are no activities). -/
theorem activity_rates_bounded (acts : List ActivityRec) :
    successRate acts + failureRate acts ≤ 100 ∧
    (acts = [] → successRate acts = 0 ∧ failureRate acts = 0) := by
  constructor
  · rcases Nat.eq_zero_or_pos acts.length with hn | hn
    · simp [successRate, failureRate, hn]
    · have hdisj : ∀ a : ActivityRec,
          (statusKey a.status == "SUCCESS") = true →
          (statusKey a.status == "FAILED") = false := by
        intro a ha
        have : statusKey a.status = "SUCCESS" := by simpa using ha
        simp [this]
      have hsf : statusCount "SUCCESS" acts + statusCount "FAILED" acts ≤ acts.length :=
        length_filter_disjoint_le _ _ acts hdisj
      have hnq : (0 : ℚ) < (acts.length : ℚ) := by exact_mod_cast hn
      have hratio : ((statusCount "SUCCESS" acts : ℚ) + (statusCount "FAILED" acts : ℚ))
          / (acts.length : ℚ) ≤ 1 := by
        rw [div_le_one hnq]
        exact_mod_cast hsf
      have hrw : successRate acts + failureRate acts
          = ((statusCount "SUCCESS" acts : ℚ) + (statusCount "FAILED" acts : ℚ))
              / (acts.length : ℚ) * 100 := by
        simp only [successRate, failureRate, if_pos hn]
        ring
      rw [hrw]
      calc ((statusCount "SUCCESS" acts : ℚ) + (statusCount "FAILED" acts : ℚ))
            / (acts.length : ℚ) * 100
          ≤ 1 * 100 := by
            exact mul_le_mul_of_nonneg_right hratio (by norm_num)
        _ = 100 := by norm_num
  · intro hnil
    subst hnil
    simp [successRate, failureRate]

/-- C6 witness: applying the theorem at the empty list gives both rates 0,
and at a one-element FAILED list the bound 100 holds. -/
theorem activity_rates_bounded_check :
    (successRate [] = 0 ∧ failureRate [] = 0) ∧
    successRate [⟨"FAILED"⟩] + failureRate [⟨"FAILED"⟩] ≤ 100 :=
  ⟨(activity_rates_bounded []).2 rfl, (activity_rates_bounded [⟨"FAILED"⟩]).1⟩

/- C7: weekly bucketing of getTransactionTrendsReport. -/

/-- JS `Date.prototype.getDay` on the day index `t`: day 0 (1970-01-01) was
a Thursday, so the weekday (Sunday = 0) is `(t + 4) % 7`. -/
def jsGetDay (t : ℤ) : ℤ := (t + 4) % 7

/-- The weekly group key of `getTransactionTrendsReport`:
`startOfWeek.setDate(date.getDate() - date.getDay())`, i.e. the date of
the (Sunday-started) week containing `t`. -/
def weeklyGroupKey (t : ℤ) : ℤ := t - jsGetDay t

/-- Spec-side predicate: `d1` and `d2` fall in the same calendar week, i.e.
there is a Sunday `s` with both days in `[s, s + 7)`. -/
def sameCalendarWeek (d1 d2 : ℤ) : Prop :=
  ∃ s : ℤ, jsGetDay s = 0 ∧ s ≤ d1 ∧ d1 < s + 7 ∧ s ≤ d2 ∧ d2 < s + 7

/-- The deposits side of the `trends` accumulation for `period = "weekly"`:
group the deposit rows by the start of their calendar week. -/
def weeklyDepositTrends (ds : List Deposit) : List (ℤ × Bucket) :=
  groupByKey (fun d => weeklyGroupKey d.createdAt) ds

theorem weeklyGroupKey_mem_week (t : ℤ) :
    jsGetDay (weeklyGroupKey t) = 0 ∧ weeklyGroupKey t ≤ t ∧ t < weeklyGroupKey t + 7 := by
  unfold weeklyGroupKey jsGetDay
  omega

theorem weeklyGroupKey_unique (s t : ℤ) (hs : jsGetDay s = 0)
    (h1 : s ≤ t) (h2 : t < s + 7) : weeklyGroupKey t = s := by
  unfold weeklyGroupKey jsGetDay at *
  omega

theorem sameCalendarWeek_iff_key_eq (d1 d2 : ℤ) :
    sameCalendarWeek d1 d2 ↔ weeklyGroupKey d1 = weeklyGroupKey d2 := by
  constructor
  · rintro ⟨s, hs, ha1, hb1, ha2, hb2⟩
    rw [weeklyGroupKey_unique s d1 hs ha1 hb1, weeklyGroupKey_unique s d2 hs ha2 hb2]
  · intro heq
    obtain ⟨hsun, hle1, hlt1⟩ := weeklyGroupKey_mem_week d1
    obtain ⟨_, hle2, hlt2⟩ := weeklyGroupKey_mem_week d2
    exact ⟨weeklyGroupKey d1, hsun, hle1, hlt1, heq ▸ hle2, heq ▸ hlt2⟩

/-- C7: for `period = "weekly"` the group key of getTransactionTrendsReport
identifies exactly the records of one calendar week — two `createdAt` days
get the same key iff they lie in the same (Sunday-started) calendar week —
and the key is the date of the start of that week (a Sunday, at most 6 days
before the record); in particular two deposits in the same week collapse
into one bucket whose count is 2 and whose amount is the sum of the two
amounts. -/
theorem weekly_bucket_collapse (d1 d2 : ℤ) :
    (sameCalendarWeek d1 d2 ↔ weeklyGroupKey d1 = weeklyGroupKey d2) ∧
    (jsGetDay (weeklyGroupKey d1) = 0 ∧ weeklyGroupKey d1 ≤ d1 ∧ d1 < weeklyGroupKey d1 + 7) ∧
    (∀ (a1 a2 : ℚ) (st1 st2 : TxStatus), sameCalendarWeek d1 d2 →
      weeklyDepositTrends [⟨a1, d1, st1⟩, ⟨a2, d2, st2⟩]
        = [(weeklyGroupKey d1, ⟨2, a1 + a2⟩)]) := by
  refine ⟨sameCalendarWeek_iff_key_eq d1 d2, weeklyGroupKey_mem_week d1, ?_⟩
  intro a1 a2 st1 st2 hsame
  have hk : weeklyGroupKey d2 = weeklyGroupKey d1 :=
    ((sameCalendarWeek_iff_key_eq d1 d2).mp hsame).symm
  show upsert (weeklyGroupKey d2) a2 (upsert (weeklyGroupKey d1) a1 [])
      = [(weeklyGroupKey d1, ⟨2, a1 + a2⟩)]
  rw [hk]
  simp [upsert]

/-- C7 witness: day 3 (Sunday 1970-01-04) and day 4 (Monday 1970-01-05) are
in the same calendar week, so the theorem collapses two deposits of 100 and
50 on those days into the single bucket keyed by day 3 with count 2 and
amount 150. -/
theorem weekly_bucket_collapse_check :
    sameCalendarWeek 3 4 ∧
    weeklyDepositTrends [⟨100, 3, TxStatus.APPROVED⟩, ⟨50, 4, TxStatus.APPROVED⟩]
      = [((3 : ℤ), ⟨2, 150⟩)] := by
  have hsame : sameCalendarWeek 3 4 := ⟨3, by decide, by omega, by omega, by omega, by omega⟩
  refine ⟨hsame, ?_⟩
  have h := (weekly_bucket_collapse 3 4).2.2 100 50 TxStatus.APPROVED TxStatus.APPROVED hsame
  rw [h]
  norm_num [weeklyGroupKey, jsGetDay]

/- C8: pagination normalization of the list endpoints. -/

/-- JS `x || d` applied to a `parseInt` result: `NaN` (`none`) and `0` are
falsy and fall back to the default. -/
def jsOrDefault (v : Option ℤ) (deflt : ℤ) : ℤ :=
  match v with
  | none => deflt
  | some n => if n = 0 then deflt else n

/-- `listAssets`: `Math.max(1, parseInt(String(req.query.page ?? "1"), 10) || 1)`
(an absent `page` is the string `"1"`, parsing to `some 1`). -/
def listAssetsPage (raw : Option ℤ) : ℤ := max 1 (jsOrDefault raw 1)

/-- `listAssets`: `Math.min(100, Math.max(1, parseInt(String(req.query.pageSize ?? "20"), 10) || 20))`. -/
def listAssetsPageSize (raw : Option ℤ) : ℤ := min 100 (max 1 (jsOrDefault raw 20))

/-- `getRecentActivity`: `pageNum = parseInt(page as string, 10)` — the raw
parse result, with no clamping and no NaN fallback. -/
def recentActivityPage (raw : Option ℤ) : Option ℤ := raw

/-- `getRecentActivity`: `limitNum = Math.min(parseInt(limit as string, 10), 100)`;
`Math.min(NaN, 100)` is `NaN`, so `none` propagates. -/
def recentActivityLimit (raw : Option ℤ) : Option ℤ := raw.map (fun n => min n 100)

/-- The page-size interval the claim requires: `[1, 100]`. -/
def inPageSizeRange (n : ℤ) : Prop := 1 ≤ n ∧ n ≤ 100

instance instDecidableInPageSizeRange (n : ℤ) : Decidable (inPageSizeRange n) :=
  inferInstanceAs (Decidable (1 ≤ n ∧ n ≤ 100))

/-- C8 counterexample: in `getRecentActivity` the raw query value `"0"`
(parse result `some 0`) passes through unclamped — the effective page is 0
(below 1) and the effective limit is 0 (outside `[1, 100]`), refuting the
claim that every list endpoint clamps every input. -/
theorem recentActivity_pagination_unclamped :
    recentActivityPage (some 0) = some 0 ∧
    ¬ (1 ≤ (0 : ℤ)) ∧
    recentActivityLimit (some 0) = some 0 ∧
    ¬ inPageSizeRange 0 := by
  refine ⟨rfl, by norm_num, rfl, ?_⟩
  intro h
  exact absurd h.1 (by norm_num)

/-- C8 (amended): `listAssets` does satisfy the claim for every raw `page`
and `pageSize` value (non-numeric, zero and negative included): the
effective page is at least 1 (defaulting to 1) and the effective page size
lies in `[1, 100]` (defaulting to 20). `getRecentActivity`, however, only
applies the upper bound 100 to the limit and passes the parsed page through
unchanged, so values below 1 (and NaN) are not normalized there. -/
theorem pagination_normalization (raw : Option ℤ) (n : ℤ) :
    1 ≤ listAssetsPage raw ∧
    inPageSizeRange (listAssetsPageSize raw) ∧
    listAssetsPage none = 1 ∧
    listAssetsPageSize none = 20 ∧
    recentActivityLimit (some n) = some (min n 100) ∧
    recentActivityPage raw = raw := by
  refine ⟨?_, ?_, rfl, rfl, rfl, rfl⟩
  · exact le_max_left 1 _
  · constructor
    · rcases raw with _ | m
      · simp [listAssetsPageSize, jsOrDefault]
      · simp only [listAssetsPageSize, jsOrDefault]
        by_cases hm : m = 0 <;> simp [hm]
    · exact min_le_left 100 _

/- C9: top-N rankings (topWallets of getWalletsReport and topActiveUsers of
getUserActivityReport). JS `Array.prototype.sort` is a stable sort; with the
comparator `(a, b) => b.metric - a.metric` its output is the unique
metric-descending stable permutation, modelled by a stable insertion sort. -/

/-- `[...].sort((a, b) => mb - ma)`: stable sort, descending in `m`. -/
def sortByDesc {α β : Type} [LinearOrder β] (m : α → β) (l : List α) : List α :=
  l.insertionSort (fun a b => m b ≤ m a)

/-- `.sort((a, b) => mb - ma).slice(0, 10)`. -/
def topTen {α β : Type} [LinearOrder β] (m : α → β) (l : List α) : List α :=
  (sortByDesc m l).take 10

theorem sorted_sortByDesc {α β : Type} [LinearOrder β] (m : α → β) (l : List α) :
    (sortByDesc m l).Sorted (fun a b => m b ≤ m a) := by
  haveI : IsTotal α (fun a b => m b ≤ m a) := ⟨fun a b => le_total (m b) (m a)⟩
  haveI : IsTrans α (fun a b => m b ≤ m a) := ⟨fun _ _ _ h1 h2 => le_trans h2 h1⟩
  exact List.sorted_insertionSort _ l

theorem filter_orderedInsert_metric {α β : Type} [LinearOrder β]
    (m : α → β) (c : β) (a : α) (l : List α) :
    ((l.orderedInsert (fun a b => m b ≤ m a) a).filter (fun x => decide (m x = c)))
      = ((a :: l).filter (fun x => decide (m x = c))) := by
  induction l with
  | nil => rfl
  | cons b t ih =>
    by_cases hba : m b ≤ m a
    · simp [List.orderedInsert, hba]
    · have hab : m a < m b := lt_of_not_le hba
      simp only [List.orderedInsert, if_neg hba]
      by_cases hbc : m b = c
      · have hac : m a ≠ c := by
          intro h
          exact absurd (hbc ▸ h : m a = m b) (ne_of_lt hab)
        simp [List.filter_cons, hbc, hac, ih]
      · simp [List.filter_cons, hbc, ih]

/-- Stability of the model sort: for each metric value, the equal-metric
records of the output are exactly the equal-metric records of the input, in
input order. -/
theorem filter_sortByDesc {α β : Type} [LinearOrder β] (m : α → β) (c : β) (l : List α) :
    (sortByDesc m l).filter (fun x => decide (m x = c))
      = l.filter (fun x => decide (m x = c)) := by
  induction l with
  | nil => rfl
  | cons a t ih =>
    show ((sortByDesc m t).orderedInsert (fun a b => m b ≤ m a) a).filter _ = _
    rw [filter_orderedInsert_metric, List.filter_cons, List.filter_cons, ih]

/-- Two lists sorted descending in `m` with the same equal-metric
subsequences are equal. -/
theorem sorted_desc_ext {α β : Type} [LinearOrder β] (m : α → β) :
    ∀ (l1 l2 : List α), l1.Sorted (fun a b => m b ≤ m a) → l2.Sorted (fun a b => m b ≤ m a) →
      (∀ c : β, l1.filter (fun x => decide (m x = c)) = l2.filter (fun x => decide (m x = c))) →
      l1 = l2 := by
  intro l1
  induction l1 with
  | nil =>
    intro l2 _ _ hf
    cases l2 with
    | nil => rfl
    | cons b t2 =>
      exfalso
      have h := hf (m b)
      simp [List.filter_cons] at h
  | cons a t1 ih =>
    intro l2 hs1 hs2 hf
    cases l2 with
    | nil =>
      exfalso
      have h := hf (m a)
      simp [List.filter_cons] at h
    | cons b t2 =>
      have hable : m a ≤ m b := by
        have hne : (b :: t2).filter (fun x => decide (m x = m a)) ≠ [] := by
          rw [← hf (m a)]
          simp [List.filter_cons]
        have hx : ∃ x ∈ b :: t2, m x = m a := by
          by_contra hno
          push_neg at hno
          exact hne (List.filter_eq_nil_iff.mpr (fun x hxmem => by simpa using hno x hxmem))
        rcases hx with ⟨x, hxmem, hxm⟩
        rcases List.mem_cons.mp hxmem with hxb | hxt
        · rw [← hxm, hxb]
        · exact hxm ▸ List.rel_of_sorted_cons hs2 x hxt
      have hbale : m b ≤ m a := by
        have hne : (a :: t1).filter (fun x => decide (m x = m b)) ≠ [] := by
          rw [hf (m b)]
          simp [List.filter_cons]
        have hx : ∃ x ∈ a :: t1, m x = m b := by
          by_contra hno
          push_neg at hno
          exact hne (List.filter_eq_nil_iff.mpr (fun x hxmem => by simpa using hno x hxmem))
        rcases hx with ⟨x, hxmem, hxm⟩
        rcases List.mem_cons.mp hxmem with hxa | hxt
        · rw [← hxm, hxa]
        · exact hxm ▸ List.rel_of_sorted_cons hs1 x hxt
      have hmab : m a = m b := le_antisymm hable hbale
      have hhead := hf (m a)
      rw [List.filter_cons, List.filter_cons, if_pos (by simp),
        if_pos (by simp [hmab])] at hhead
      have hab : a = b := (List.cons.injEq _ _ _ _ ▸ hhead).1
      have htails : ∀ c : β, t1.filter (fun x => decide (m x = c))
          = t2.filter (fun x => decide (m x = c)) := by
        intro c
        by_cases hc : m a = c
        · have h := hf c
          rw [List.filter_cons, List.filter_cons, if_pos (by simp [hc]),
            if_pos (by simp [hmab ▸ hc])] at h
          exact (List.cons.injEq _ _ _ _ ▸ h).2
        · have h := hf c
          rw [List.filter_cons, List.filter_cons, if_neg (by simpa using hc),
            if_neg (by simpa using (hmab ▸ hc : ¬ m b = c))] at h
          exact h
      rw [hab, ih t2 hs1.of_cons hs2.of_cons htails]

/-- Reordering the input while keeping the relative order of equal-metric
records leaves the sorted output (and hence the top-10 slice) unchanged. -/
theorem topTen_congr {α β : Type} [LinearOrder β] (m : α → β) (l1 l2 : List α)
    (h : ∀ c : β, l1.filter (fun x => decide (m x = c)) = l2.filter (fun x => decide (m x = c))) :
    topTen m l1 = topTen m l2 := by
  unfold topTen
  rw [sorted_desc_ext m (sortByDesc m l1) (sortByDesc m l2)
    (sorted_sortByDesc m l1) (sorted_sortByDesc m l2)
    (fun c => by rw [filter_sortByDesc, filter_sortByDesc]; exact h c)]

theorem length_topTen {α β : Type} [LinearOrder β] (m : α → β) (l : List α) :
    (topTen m l).length ≤ 10 := by
  unfold topTen
  rw [List.length_take]
  exact min_le_left 10 _

theorem sorted_topTen {α β : Type} [LinearOrder β] (m : α → β) (l : List α) :
    (topTen m l).Sorted (fun a b => m b ≤ m a) :=
  (sorted_sortByDesc m l).sublist (List.take_sublist 10 _)

/-- A wallet row as ranked by `getWalletsReport` (identified by its account
number, ranked by `balance`). -/
structure WalletRec where
  accountNumber : String
  balance : ℚ
deriving DecidableEq, Repr

/-- One entry of `Object.values(userActivityCount)` as ranked by
`getUserActivityReport` (identified by the user, ranked by `count`). -/
structure UserActivityEntry where
  userId : String
  count : ℕ
deriving DecidableEq, Repr

/-- `topWallets = [...wallets].sort((a, b) => b.balance - a.balance).slice(0, 10)`. -/
def topWallets (ws : List WalletRec) : List WalletRec :=
  topTen (fun w => w.balance) ws

/-- `topActiveUsers = Object.values(userActivityCount).sort((a, b) => b.count - a.count).slice(0, 10)`. -/
def topActiveUsers (us : List UserActivityEntry) : List UserActivityEntry :=
  topTen (fun u => u.count) us

/-- C9: both top-N rankings return at most 10 entries, sorted descending in
the ranking metric; equal-metric entries keep their relative input order
(for every metric value the equal-metric records of the sorted list are the
equal-metric records of the input, in order), and any input reordering that
preserves the relative order of equal-metric records leaves the output
unchanged. -/
theorem topN_rankings (ws ws2 : List WalletRec) (us us2 : List UserActivityEntry) :
    (topWallets ws).length ≤ 10 ∧
    (topWallets ws).Sorted (fun a b => b.balance ≤ a.balance) ∧
    (∀ c : ℚ, (sortByDesc (fun w => w.balance) ws).filter (fun x => decide (x.balance = c))
      = ws.filter (fun x => decide (x.balance = c))) ∧
    ((∀ c : ℚ, ws.filter (fun x => decide (x.balance = c))
        = ws2.filter (fun x => decide (x.balance = c))) →
      topWallets ws = topWallets ws2) ∧
    (topActiveUsers us).length ≤ 10 ∧
    (topActiveUsers us).Sorted (fun a b => b.count ≤ a.count) ∧
    (∀ c : ℕ, (sortByDesc (fun u => u.count) us).filter (fun x => decide (x.count = c))
      = us.filter (fun x => decide (x.count = c))) ∧
    ((∀ c : ℕ, us.filter (fun x => decide (x.count = c))
        = us2.filter (fun x => decide (x.count = c))) →
      topActiveUsers us = topActiveUsers us2) :=
  ⟨length_topTen _ ws, sorted_topTen _ ws,
    fun c => filter_sortByDesc _ c ws, topTen_congr _ ws ws2,
    length_topTen _ us, sorted_topTen _ us,
    fun c => filter_sortByDesc _ c us, topTen_congr _ us us2⟩

/-- C9 witness: on a concrete wallet list with a tie (balances 5, 7, 5) the
top list keeps the tied wallets in input order, and the reorder-invariance
hypothesis is discharged at equal inputs. -/
theorem topN_rankings_check :
    (topWallets [⟨"a", 5⟩, ⟨"b", 7⟩, ⟨"c", 5⟩]).length ≤ 10 ∧
    topWallets [⟨"a", 5⟩, ⟨"b", 7⟩, ⟨"c", 5⟩]
      = topWallets [⟨"a", 5⟩, ⟨"b", 7⟩, ⟨"c", 5⟩] ∧
    topActiveUsers [⟨"u1", 3⟩, ⟨"u2", 3⟩] = topActiveUsers [⟨"u1", 3⟩, ⟨"u2", 3⟩] ∧
    topWallets [⟨"a", 5⟩, ⟨"b", 7⟩, ⟨"c", 5⟩] = [⟨"b", 7⟩, ⟨"a", 5⟩, ⟨"c", 5⟩] :=
  ⟨(topN_rankings [⟨"a", 5⟩, ⟨"b", 7⟩, ⟨"c", 5⟩] [] [] []).1,
    (topN_rankings [⟨"a", 5⟩, ⟨"b", 7⟩, ⟨"c", 5⟩] [⟨"a", 5⟩, ⟨"b", 7⟩, ⟨"c", 5⟩] [] []).2.2.2.1
      (fun _ => rfl),
    (topN_rankings [] [] [⟨"u1", 3⟩, ⟨"u2", 3⟩] [⟨"u1", 3⟩, ⟨"u2", 3⟩]).2.2.2.2.2.2.2
      (fun _ => rfl),
    by decide⟩

end InvestmentApi
